import Mathlib

/-!
# FrienGO poll lifecycle engine: a shallow embedding

This file embeds the data model (`models.py`), the persistence layer
(`database.py`, SQLite tables modelled as lists of rows), the poll
lifecycle engine (`voting.py`) and the reminder scheduler
(`scheduler.py`) of the FrienGO repository, and proves the behavioural
claims about them.

Modelling conventions:
* Python `datetime` values are `Nat` timestamps, `date` values are `Nat`
  proleptic-Gregorian ordinals (as in `date.toordinal`), so
  `weekday d = (d + 6) % 7` matches `date.weekday()` (Monday = 0).
* Each SQLite table is a list of rows kept in insertion order; the
  `AUTOINCREMENT` primary keys are modelled with explicit `next_*`
  counters in the store.
* Operations that mutate the store take the store and return the new
  store together with the Python return value.  A raised Python
  exception is modelled with `Except` (`PyExc`).
-/

namespace FrienGO

/-- A raised Python exception, as observable by the caller. -/
inductive PyExc where
  | valueError (msg : String)
  | typeError (msg : String)
deriving DecidableEq

/-- Embeds `models.VoteStatus`. -/
inductive VoteStatus where
  | active
  | closed
deriving DecidableEq

/-- Embeds `models.User`. -/
structure User where
  user_id : Int
  username : Option String
  first_name : Option String
  last_name : Option String
deriving DecidableEq

/-- Embeds `models.User.display_name`.  Python truthiness: an absent or
empty `first_name` falls through to `username`, an absent or empty
`username` falls through to the synthesized placeholder. -/
def User.display_name (u : User) : String :=
  let first := u.first_name.getD ""
  if first ≠ "" then (first ++ " " ++ u.last_name.getD "").trim
  else
    let un := u.username.getD ""
    if un ≠ "" then un else "User_" ++ toString u.user_id

/-- Embeds `models.VoteOption`.  The `date` column is nullable in the schema and
absent for the custom "Не пойду:(" option, hence `Option Nat`. -/
structure VoteOption where
  option_id : Int
  voting_id : Int
  date : Option Nat
  description : String
deriving DecidableEq

/-- Embeds `models.Vote`. -/
structure Vote where
  vote_id : Int
  user_id : Int
  option_id : Int
  voting_id : Int
  created_at : Nat
deriving DecidableEq

/-- A row of the `votings` table (a `models.Voting` without its
assembled `options`/`votes` lists). -/
structure VotingRow where
  voting_id : Int
  chat_id : Int
  message_id : Option Int
  title : String
  created_at : Nat
  status : VoteStatus
deriving DecidableEq

/-- Embeds `models.Voting` as assembled by `DatabaseManager.get_voting`. -/
structure Voting where
  voting_id : Int
  chat_id : Int
  message_id : Option Int
  title : String
  created_at : Nat
  status : VoteStatus
  options : List VoteOption
  votes : List Vote
deriving DecidableEq

/-- Embeds `models.Voting.get_user_votes`. -/
def Voting.get_user_votes (v : Voting) (user_id : Int) : List Vote :=
  v.votes.filter (fun vote => vote.user_id == user_id)

/-- Embeds `models.Voting.get_votes_for_option`. -/
def Voting.get_votes_for_option (v : Voting) (option_id : Int) : List Vote :=
  v.votes.filter (fun vote => vote.option_id == option_id)

/-- Embeds `models.Voting.get_voted_users` (a Python `set`; we keep the distinct
user ids as a duplicate-free list). -/
def Voting.get_voted_users (v : Voting) : List Int :=
  (v.votes.map Vote.user_id).dedup

/-- Embeds `models.Voting.has_user_voted_for_option`. -/
def Voting.has_user_voted_for_option (v : Voting) (user_id option_id : Int) : Bool :=
  v.votes.any (fun vote => vote.user_id == user_id && vote.option_id == option_id)

/-- Embeds `models.PingSchedule` / a row of the `ping_schedules` table. -/
structure PingSchedule where
  schedule_id : Int
  voting_id : Int
  ping_24h_at : Nat
  ping_48h_at : Nat
  ping_72h_at : Nat
  is_24h_sent : Bool
  is_48h_sent : Bool
  is_72h_sent : Bool
deriving DecidableEq

/-- The SQLite store of `database.DatabaseManager`: one list per table,
plus the `AUTOINCREMENT` counters. -/
structure DB where
  users : List User
  votings : List VotingRow
  vote_options : List VoteOption
  votes : List Vote
  ping_schedules : List PingSchedule
  next_voting_id : Int
  next_option_id : Int
  next_vote_id : Int
  next_schedule_id : Int
deriving DecidableEq

namespace DatabaseManager

/-- Embeds `DatabaseManager.get_all_users` (`SELECT * FROM users ORDER BY user_id`;
`user_id` is the primary key, so any sort by it gives the same list — we
use insertion sort). -/
def get_all_users (db : DB) : List User :=
  db.users.insertionSort (fun a b => a.user_id ≤ b.user_id)

/-- Embeds `DatabaseManager.get_user`. -/
def get_user (db : DB) (user_id : Int) : Option User :=
  db.users.find? (fun u => u.user_id == user_id)

/-- Embeds `DatabaseManager.get_voting`: fetch the voting row and assemble it
with its options and votes (the rows with matching `voting_id`). -/
def get_voting (db : DB) (voting_id : Int) : Option Voting :=
  match db.votings.find? (fun row => row.voting_id == voting_id) with
  | none => none
  | some row =>
      some { voting_id := row.voting_id
             chat_id := row.chat_id
             message_id := row.message_id
             title := row.title
             created_at := row.created_at
             status := row.status
             options := db.vote_options.filter (fun o => o.voting_id == voting_id)
             votes := db.votes.filter (fun v => v.voting_id == voting_id) }

/-- Embeds `DatabaseManager.get_active_voting_by_chat`
(`WHERE chat_id = ? AND status = 'active' ORDER BY created_at DESC LIMIT 1`). -/
def get_active_voting_by_chat (db : DB) (chat_id : Int) : Option Voting :=
  match db.votings.filter
      (fun row => row.chat_id == chat_id && row.status == VoteStatus.active) with
  | [] => none
  | r :: rs =>
      get_voting db
        (rs.foldl (fun best x => if best.created_at < x.created_at then x else best) r).voting_id

/-- Embeds `DatabaseManager.add_vote` (INSERT; `vote.vote_id = cursor.lastrowid`). -/
def add_vote (db : DB) (vote : Vote) : DB × Vote :=
  let v : Vote := { vote with vote_id := db.next_vote_id }
  ({ db with votes := db.votes ++ [v], next_vote_id := db.next_vote_id + 1 }, v)

/-- Embeds `DatabaseManager.remove_vote` (DELETE matching rows; returns
`cursor.rowcount > 0`). -/
def remove_vote (db : DB) (user_id option_id voting_id : Int) : DB × Bool :=
  let deleted := db.votes.filter
    (fun r => r.user_id == user_id && r.option_id == option_id && r.voting_id == voting_id)
  let remaining := db.votes.filter
    (fun r => !(r.user_id == user_id && r.option_id == option_id && r.voting_id == voting_id))
  ({ db with votes := remaining }, !deleted.isEmpty)

/-- Embeds `DatabaseManager.get_pending_pings`: schedules with at least one
sub-reminder past due and unsent. -/
def get_pending_pings (db : DB) (current_time : Nat) : List PingSchedule :=
  db.ping_schedules.filter (fun r =>
    (decide (r.ping_24h_at ≤ current_time) && !r.is_24h_sent) ||
    (decide (r.ping_48h_at ≤ current_time) && !r.is_48h_sent) ||
    (decide (r.ping_72h_at ≤ current_time) && !r.is_72h_sent))

/-- Set the `is_{ping_type}_sent` column of one row.  (For a string other
than the three known kinds the SQL UPDATE would reference a non-existent
column; no caller passes one, and we leave the row unchanged.) -/
def set_sent_flag (r : PingSchedule) (ping_type : String) : PingSchedule :=
  if ping_type == "24h" then { r with is_24h_sent := true }
  else if ping_type == "48h" then { r with is_48h_sent := true }
  else if ping_type == "72h" then { r with is_72h_sent := true }
  else r

/-- Embeds `DatabaseManager.mark_ping_sent`. -/
def mark_ping_sent (db : DB) (schedule_id : Int) (ping_type : String) : DB :=
  { db with ping_schedules := db.ping_schedules.map (fun r =>
      if r.schedule_id == schedule_id then set_sent_flag r ping_type else r) }

end DatabaseManager

namespace VotingService

/-- Python's `date.weekday()` on an ordinal day number (Monday = 0,
Saturday = 5, Sunday = 6; ordinal 1 is a Monday). -/
def weekday (d : Nat) : Nat := (d + 6) % 7

/-- Embeds `VotingService.generate_weekend_dates`: pairs (Saturday, Sunday) for
`weeks` weeks, starting from the first Saturday on or after `start_date`. -/
def generate_weekend_dates (start_date : Nat) (weeks : Nat) : List Nat :=
  let days_until_saturday : Nat := ((5 - (weekday start_date : Int)) % 7).toNat
  let saturday : Nat :=
    if days_until_saturday = 0 ∧ weekday start_date = 5 then start_date
    else start_date + days_until_saturday
  (List.range weeks).foldl
    (fun weekends week => weekends ++ [saturday + 7 * week, saturday + 7 * week + 1]) []

/-- Embeds `VotingService.create_voting`.  After the conflict check the code
builds `Voting(..., message_thread_id=message_thread_id, ...)`
(voting.py lines 54–62), but the `models.Voting` dataclass has no
`message_thread_id` field, so in Python this constructor call raises
`TypeError` before anything is written to the store (the code below it,
including `VoteOption.create_custom` — which `models.py` does not define
either — is unreachable). -/
def create_voting (today now : Nat) (db : DB) (chat_id : Int)
    (title : Option String) (message_thread_id : Option Int) :
    DB × Except PyExc Voting :=
  match DatabaseManager.get_active_voting_by_chat db chat_id with
  | some _ => (db, Except.error (PyExc.valueError "В чате уже есть активное голосование"))
  | none =>
      let _title := title.getD "Когда собираемся? 📅"
      let _weekend_dates := generate_weekend_dates today 4
      let _ := (now, message_thread_id)
      (db, Except.error (PyExc.typeError
        "Voting.__init__() got an unexpected keyword argument 'message_thread_id'"))

/-- Embeds `VotingService.vote_for_option`. -/
def vote_for_option (now : Nat) (db : DB) (user_id option_id voting_id : Int) :
    DB × (Bool × String) :=
  match DatabaseManager.get_voting db voting_id with
  | none => (db, (false, "Голосование не найдено"))
  | some voting =>
      if voting.status ≠ VoteStatus.active then
        (db, (false, "Голосование уже завершено"))
      else if voting.has_user_voted_for_option user_id option_id then
        (db, (false, "Вы уже голосовали за этот день"))
      else
        let vote : Vote :=
          { vote_id := 0, user_id := user_id, option_id := option_id
            voting_id := voting_id, created_at := now }
        let res := DatabaseManager.add_vote db vote
        (res.1, (true, "Голос засчитан!"))

/-- Embeds `VotingService.remove_vote`. -/
def remove_vote (db : DB) (user_id option_id voting_id : Int) :
    DB × (Bool × String) :=
  match DatabaseManager.get_voting db voting_id with
  | none => (db, (false, "Голосование не найдено"))
  | some voting =>
      if voting.status ≠ VoteStatus.active then
        (db, (false, "Голосование уже завершено"))
      else if !voting.has_user_voted_for_option user_id option_id then
        (db, (false, "Вы не голосовали за этот день"))
      else
        let res := DatabaseManager.remove_vote db user_id option_id voting_id
        if res.2 then (res.1, (true, "Голос отменен"))
        else (res.1, (false, "Ошибка при отмене голоса"))

/-- One entry of the `options` list produced by
`VotingService.get_voting_stats`. -/
structure OptionStat where
  option_id : Int
  description : String
  date : Option Nat
  votes_count : Nat
  voters : List Int
deriving DecidableEq

/-- The dict returned by `VotingService.get_voting_stats`. -/
structure Stats where
  voting_id : Int
  title : String
  total_users : Nat
  voted_users : Nat
  options : List OptionStat
deriving DecidableEq

/-- Embeds `VotingService.get_voting_stats` (read-only). -/
def get_voting_stats (db : DB) (voting_id : Int) : Option Stats :=
  match DatabaseManager.get_voting db voting_id with
  | none => none
  | some voting =>
      some { voting_id := voting_id
             title := voting.title
             total_users := (DatabaseManager.get_all_users db).length
             voted_users := voting.get_voted_users.length
             options := voting.options.map (fun opt =>
               let votes_for_option := voting.get_votes_for_option opt.option_id
               { option_id := opt.option_id
                 description := opt.description
                 date := opt.date
                 votes_count := votes_for_option.length
                 voters := votes_for_option.map Vote.user_id }) }

/-- Embeds `VotingService.get_non_voted_users` (pure filter over the supplied
member list). -/
def get_non_voted_users (db : DB) (voting_id : Int) (all_chat_members : List User) :
    List User :=
  match DatabaseManager.get_voting db voting_id with
  | none => []
  | some voting =>
      all_chat_members.filter (fun user => !(voting.get_voted_users.contains user.user_id))

/-- One resolved voter entry of `VotingService.get_detailed_results`. -/
structure DetailedVoter where
  display_name : String
  user_id : Int
deriving DecidableEq

/-- One entry of the `options` list of `get_detailed_results`. -/
structure DetailedOption where
  option_id : Int
  description : String
  date : Option Nat
  votes_count : Nat
  voters : List DetailedVoter
deriving DecidableEq

/-- The dict returned by `VotingService.get_detailed_results`. -/
structure DetailedResults where
  title : String
  total_users : Nat
  voted_users : Nat
  options : List DetailedOption
deriving DecidableEq

/-- Embeds `VotingService.get_detailed_results` (read-only): as the
stats, but each voter id is resolved to a display name through
`get_user`, and ids with no user row are silently omitted. -/
def get_detailed_results (db : DB) (voting_id : Int) : Option DetailedResults :=
  match DatabaseManager.get_voting db voting_id with
  | none => none
  | some _ =>
      match get_voting_stats db voting_id with
      | none => none
      | some stats =>
          some { title := stats.title
                 total_users := stats.total_users
                 voted_users := stats.voted_users
                 options := stats.options.map (fun opt =>
                   { option_id := opt.option_id
                     description := opt.description
                     date := opt.date
                     votes_count := opt.votes_count
                     voters := opt.voters.filterMap (fun uid =>
                       match DatabaseManager.get_user db uid with
                       | none => none
                       | some user =>
                           some { display_name := user.display_name, user_id := uid }) }) }

/-- The dict returned by `VotingService.close_voting`. -/
structure CloseResult where
  title : String
  total_users : Nat
  voted_users : Nat
  top_3 : List OptionStat
  all_options : List OptionStat
deriving DecidableEq

/-- The inline `UPDATE votings SET status = 'closed' WHERE voting_id = ?`
performed by `VotingService.close_voting`. -/
def set_voting_closed (db : DB) (voting_id : Int) : DB :=
  { db with votings := db.votings.map (fun r =>
      if r.voting_id == voting_id then { r with status := VoteStatus.closed } else r) }

/-- Embeds `VotingService.close_voting`: `None` when the voting is absent or not
active; otherwise flip the status to closed and rank the option stats by
vote count descending.  Python's `sorted(..., key=votes_count,
reverse=True)` is a stable sort; any two stable sorts of the same list
under the same total preorder agree, so it is embedded as the stable
`List.insertionSort` with `a` before `b` when `b.votes_count ≤
a.votes_count`. -/
def close_voting (db : DB) (voting_id : Int) : DB × Option CloseResult :=
  match DatabaseManager.get_voting db voting_id with
  | none => (db, none)
  | some voting =>
      if voting.status ≠ VoteStatus.active then (db, none)
      else
        let db' := set_voting_closed db voting_id
        match get_voting_stats db' voting_id with
        | none => (db', none)
        | some stats =>
            let sorted_options := stats.options.insertionSort
              (fun a b => b.votes_count ≤ a.votes_count)
            (db', some { title := stats.title
                         total_users := stats.total_users
                         voted_users := stats.voted_users
                         top_3 := sorted_options.take 3
                         all_options := sorted_options })

end VotingService

namespace PingScheduler

/-- Embeds `PingScheduler._get_ping_message`. -/
def get_ping_message (ping_type : String) : String :=
  let base_message :=
    if ping_type == "24h" then "⏰ Прошло 24 часа с момента создания голосования!"
    else if ping_type == "48h" then "⏰ Прошло 48 часов с момента создания голосования!"
    else if ping_type == "72h" then "🚨 Прошло 72 часа с момента создания голосования!"
    else "⏰ Напоминание о голосовании!"
  base_message ++ "\n\n📣 Не забудьте проголосовать за удобные дни для встречи!"

/-- The due ping kinds of one schedule snapshot, in the order the loop
builds them (`_check_and_send_pings`, scheduler.py lines 57–64). -/
def ping_types_for (current_time : Nat) (s : PingSchedule) : List String :=
  (if decide (s.ping_24h_at ≤ current_time) && !s.is_24h_sent then ["24h"] else []) ++
  (if decide (s.ping_48h_at ≤ current_time) && !s.is_48h_sent then ["48h"] else []) ++
  (if decide (s.ping_72h_at ≤ current_time) && !s.is_72h_sent then ["72h"] else [])

/-- One iteration of the inner `for ping_type in ping_types` loop: invoke
the delivery callback (`_send_ping`) and, only if it succeeds, mark that
sub-reminder sent; a failure is caught, logged and the loop continues.
The second component records every callback invocation as
`(schedule_id, ping_type, succeeded)`. -/
def process_ping (deliver : Int → Int → String → Bool)
    (chat_id voting_id schedule_id : Int)
    (acc : DB × List (Int × String × Bool)) (ping_type : String) :
    DB × List (Int × String × Bool) :=
  if deliver chat_id voting_id (get_ping_message ping_type) then
    (DatabaseManager.mark_ping_sent acc.1 schedule_id ping_type,
     acc.2 ++ [(schedule_id, ping_type, true)])
  else
    (acc.1, acc.2 ++ [(schedule_id, ping_type, false)])

/-- One iteration of the outer `for schedule in pending_schedules` loop:
resolve the owning voting (skipping the schedule when it is gone), then
attempt each due sub-reminder. -/
def process_schedule (deliver : Int → Int → String → Bool) (current_time : Nat)
    (acc : DB × List (Int × String × Bool)) (s : PingSchedule) :
    DB × List (Int × String × Bool) :=
  match DatabaseManager.get_voting acc.1 s.voting_id with
  | none => acc
  | some voting =>
      (ping_types_for current_time s).foldl
        (process_ping deliver voting.chat_id voting.voting_id s.schedule_id) acc

/-- Embeds `PingScheduler._check_and_send_pings`: one scan cycle over the due
schedules, with the delivery callback set. -/
def check_and_send_pings (deliver : Int → Int → String → Bool) (current_time : Nat)
    (db : DB) : DB × List (Int × String × Bool) :=
  (DatabaseManager.get_pending_pings db current_time).foldl
    (process_schedule deliver current_time) (db, [])

/-- The fire-time of one sub-reminder of a schedule. -/
def sub_fire_time (s : PingSchedule) (ping_type : String) : Nat :=
  if ping_type == "24h" then s.ping_24h_at
  else if ping_type == "48h" then s.ping_48h_at
  else s.ping_72h_at

/-- The sent flag of one sub-reminder of a schedule. -/
def sub_sent (s : PingSchedule) (ping_type : String) : Bool :=
  if ping_type == "24h" then s.is_24h_sent
  else if ping_type == "48h" then s.is_48h_sent
  else s.is_72h_sent

/-- A sub-reminder is due when its fire-time has passed and its sent
flag is still false. -/
def sub_due (current_time : Nat) (s : PingSchedule) (ping_type : String) : Bool :=
  decide (sub_fire_time s ping_type ≤ current_time) && !sub_sent s ping_type

/-- The callback invocations one schedule snapshot contributes to a
cycle: nothing when its voting is gone, otherwise one invocation per due
sub-reminder, recorded with the delivery outcome. -/
def schedule_log (deliver : Int → Int → String → Bool) (current_time : Nat) (db : DB)
    (s : PingSchedule) : List (Int × String × Bool) :=
  match DatabaseManager.get_voting db s.voting_id with
  | none => []
  | some v =>
      (ping_types_for current_time s).map
        (fun t => (s.schedule_id, t, deliver v.chat_id v.voting_id (get_ping_message t)))

/-- How processing one schedule snapshot `s` rewrites a stored row `r`:
only the row with the snapshot's id is touched, and only the flags of
due sub-reminders whose delivery succeeded are set. -/
def row_update (deliver : Int → Int → String → Bool) (current_time : Nat) (db : DB)
    (s r : PingSchedule) : PingSchedule :=
  if r.schedule_id == s.schedule_id then
    match DatabaseManager.get_voting db s.voting_id with
    | none => r
    | some v =>
        ((ping_types_for current_time s).filter
          (fun t => deliver v.chat_id v.voting_id (get_ping_message t))).foldl
          DatabaseManager.set_sent_flag r
  else r

end PingScheduler

/-! ## Concrete sample stores used to instantiate the theorems -/

/-- A fresh store with no rows at all. -/
def emptyStore : DB := ⟨[], [], [], [], [], 1, 1, 1, 1⟩

/-- A store whose chat 7 already has an active voting. -/
def dbC2 : DB :=
  ⟨[], [VotingRow.mk 1 7 none "t" 0 VoteStatus.active], [], [], [], 2, 1, 1, 1⟩

/-- A store whose chat 7 already has an active voting. -/
def dbC3 : DB :=
  ⟨[], [VotingRow.mk 1 7 none "t" 0 VoteStatus.active], [], [], [], 2, 1, 1, 1⟩

/-- An active voting with one option and no votes yet. -/
def dbC4 : DB :=
  ⟨[], [VotingRow.mk 1 7 none "t" 0 VoteStatus.active],
   [VoteOption.mk 10 1 (some 738891) "Суббота 06.01.2024"], [], [], 2, 11, 1, 1⟩

/-- The voting assembled from `dbC4`. -/
def vC4 : Voting :=
  ⟨1, 7, none, "t", 0, VoteStatus.active,
   [VoteOption.mk 10 1 (some 738891) "Суббота 06.01.2024"], []⟩

/-- An active voting with one option and no votes yet. -/
def dbC5 : DB :=
  ⟨[], [VotingRow.mk 1 7 none "t" 0 VoteStatus.active],
   [VoteOption.mk 10 1 (some 738891) "Суббота 06.01.2024"], [], [], 2, 11, 1, 1⟩

/-- The voting assembled from `dbC5`. -/
def vC5 : Voting :=
  ⟨1, 7, none, "t", 0, VoteStatus.active,
   [VoteOption.mk 10 1 (some 738891) "Суббота 06.01.2024"], []⟩

/-- An active voting with four options whose vote counts are
[5, 0, 2, 3] in original option order. -/
def dbC6 : DB :=
  ⟨[],
   [VotingRow.mk 1 7 none "t" 0 VoteStatus.active],
   [VoteOption.mk 1 1 none "o1", VoteOption.mk 2 1 none "o2",
    VoteOption.mk 3 1 none "o3", VoteOption.mk 4 1 none "o4"],
   [Vote.mk 1 101 1 1 0, Vote.mk 2 102 1 1 0, Vote.mk 3 103 1 1 0,
    Vote.mk 4 104 1 1 0, Vote.mk 5 105 1 1 0,
    Vote.mk 6 101 3 1 0, Vote.mk 7 102 3 1 0,
    Vote.mk 8 101 4 1 0, Vote.mk 9 102 4 1 0, Vote.mk 10 103 4 1 0],
   [], 2, 5, 11, 1⟩

/-- The voting assembled from `dbC6`. -/
def vC6 : Voting :=
  ⟨1, 7, none, "t", 0, VoteStatus.active,
   [VoteOption.mk 1 1 none "o1", VoteOption.mk 2 1 none "o2",
    VoteOption.mk 3 1 none "o3", VoteOption.mk 4 1 none "o4"],
   [Vote.mk 1 101 1 1 0, Vote.mk 2 102 1 1 0, Vote.mk 3 103 1 1 0,
    Vote.mk 4 104 1 1 0, Vote.mk 5 105 1 1 0,
    Vote.mk 6 101 3 1 0, Vote.mk 7 102 3 1 0,
    Vote.mk 8 101 4 1 0, Vote.mk 9 102 4 1 0, Vote.mk 10 103 4 1 0]⟩

/-- A store with a single active voting. -/
def dbC7 : DB :=
  ⟨[], [VotingRow.mk 1 7 none "t" 0 VoteStatus.active], [], [], [], 2, 1, 1, 1⟩

/-- The voting assembled from `dbC7`. -/
def vC7 : Voting := ⟨1, 7, none, "t", 0, VoteStatus.active, [], []⟩

/-- A store with one voting and one reminder schedule whose 24h
sub-reminder is due at time 150 and still unsent. -/
def dbC8 : DB :=
  ⟨[], [VotingRow.mk 1 7 none "t" 0 VoteStatus.active], [], [],
   [PingSchedule.mk 1 1 100 200 300 false false false], 2, 1, 1, 2⟩

/-- The voting assembled from `dbC8`. -/
def vC8 : Voting := ⟨1, 7, none, "t", 0, VoteStatus.active, [], []⟩

/-- An active voting with a single option with id 10 (999 is not an
option of this poll). -/
def dbC10 : DB :=
  ⟨[], [VotingRow.mk 1 7 none "t" 0 VoteStatus.active],
   [VoteOption.mk 10 1 (some 738891) "Суббота 06.01.2024"], [], [], 2, 11, 1, 1⟩

/-- The voting assembled from `dbC10`. -/
def vC10 : Voting :=
  ⟨1, 7, none, "t", 0, VoteStatus.active,
   [VoteOption.mk 10 1 (some 738891) "Суббота 06.01.2024"], []⟩

/-! ## Helper lemmas -/

/-- A row of the votings table can always be re-fetched by its id. -/
theorem get_voting_some_of_mem {db : DB} {row : VotingRow} (h : row ∈ db.votings) :
    ∃ v, DatabaseManager.get_voting db row.voting_id = some v := by
  unfold DatabaseManager.get_voting
  cases hf : db.votings.find? (fun r => r.voting_id == row.voting_id) with
  | none =>
      rw [List.find?_eq_none] at hf
      exact absurd (by simp) (hf row h)
  | some r => exact ⟨_, rfl⟩

/-- The running maximum of `ORDER BY created_at DESC LIMIT 1` is one of
the candidate rows. -/
theorem foldl_max_created_mem (r : VotingRow) (rs : List VotingRow) :
    rs.foldl (fun best x => if best.created_at < x.created_at then x else best) r ∈ r :: rs := by
  induction rs generalizing r with
  | nil => simp
  | cons x xs ih =>
      rw [List.foldl_cons]
      by_cases hc : r.created_at < x.created_at
      · rw [if_pos hc]
        rcases List.mem_cons.mp (ih x) with h | h
        · simp [h]
        · simp [h]
      · rw [if_neg hc]
        rcases List.mem_cons.mp (ih r) with h | h
        · simp [h]
        · simp [h]

/-- When some row of the chat is active, `get_active_voting_by_chat`
returns a voting. -/
theorem get_active_voting_isSome {db : DB} {chat_id : Int}
    (h : ∃ row ∈ db.votings, row.chat_id = chat_id ∧ row.status = VoteStatus.active) :
    ∃ v, DatabaseManager.get_active_voting_by_chat db chat_id = some v := by
  obtain ⟨row, hmem, hchat, hstat⟩ := h
  unfold DatabaseManager.get_active_voting_by_chat
  cases hf : db.votings.filter
      (fun r => r.chat_id == chat_id && r.status == VoteStatus.active) with
  | nil =>
      have hrow : row ∈ db.votings.filter
          (fun r => r.chat_id == chat_id && r.status == VoteStatus.active) :=
        List.mem_filter.mpr ⟨hmem, by simp [hchat, hstat]⟩
      rw [hf] at hrow
      cases hrow
  | cons r rs =>
      have hmax := foldl_max_created_mem r rs
      rw [← hf] at hmax
      exact get_voting_some_of_mem (List.mem_of_mem_filter hmax)

/-- Inversion of a successful `get_voting`: the found row and the shape
of the assembled `Voting`. -/
theorem get_voting_inv {db : DB} {vid : Int} {v : Voting}
    (h : DatabaseManager.get_voting db vid = some v) :
    ∃ row, db.votings.find? (fun r => r.voting_id == vid) = some row ∧
      v.voting_id = row.voting_id ∧ v.chat_id = row.chat_id ∧
      v.message_id = row.message_id ∧ v.title = row.title ∧
      v.created_at = row.created_at ∧ v.status = row.status ∧
      v.options = db.vote_options.filter (fun o => o.voting_id == vid) ∧
      v.votes = db.votes.filter (fun r => r.voting_id == vid) := by
  unfold DatabaseManager.get_voting at h
  cases hf : db.votings.find? (fun r => r.voting_id == vid) with
  | none => rw [hf] at h; cases h
  | some row =>
      rw [hf] at h
      injection h with h
      subst h
      exact ⟨row, rfl, rfl, rfl, rfl, rfl, rfl, rfl, rfl, rfl⟩

/-- The function `get_voting` only reads the votings, options and votes
tables. -/
theorem get_voting_congr {d1 d2 : DB} (vid : Int)
    (h1 : d2.votings = d1.votings) (h2 : d2.vote_options = d1.vote_options)
    (h3 : d2.votes = d1.votes) :
    DatabaseManager.get_voting d2 vid = DatabaseManager.get_voting d1 vid := by
  unfold DatabaseManager.get_voting
  rw [h1, h2, h3]

/-- Appending one vote row for this voting re-assembles the same voting
with that vote appended. -/
theorem get_voting_append_vote {db : DB} {vid : Int} {v : Voting}
    (hv : DatabaseManager.get_voting db vid = some v) (nv : Vote)
    (hnv : nv.voting_id = vid) (d2 : DB)
    (h1 : d2.votings = db.votings) (h2 : d2.vote_options = db.vote_options)
    (h3 : d2.votes = db.votes ++ [nv]) :
    DatabaseManager.get_voting d2 vid = some { v with votes := v.votes ++ [nv] } := by
  unfold DatabaseManager.get_voting at hv ⊢
  rw [h1, h2, h3]
  cases hf : db.votings.find? (fun r => r.voting_id == vid) with
  | none => rw [hf] at hv; cases hv
  | some row =>
      rw [hf] at hv
      injection hv with hv
      subst hv
      simp [List.filter_append, hnv]

/-- The not-found rejection of `vote_for_option`. -/
theorem vote_for_option_not_found {db : DB} {vid : Int} (now : Nat) (u o : Int)
    (h : DatabaseManager.get_voting db vid = none) :
    VotingService.vote_for_option now db u o vid = (db, (false, "Голосование не найдено")) := by
  unfold VotingService.vote_for_option
  rw [h]

/-- The closed-poll rejection of `vote_for_option`. -/
theorem vote_for_option_closed {db : DB} {vid : Int} {v : Voting} (now : Nat) (u o : Int)
    (hv : DatabaseManager.get_voting db vid = some v)
    (hst : v.status ≠ VoteStatus.active) :
    VotingService.vote_for_option now db u o vid = (db, (false, "Голосование уже завершено")) := by
  unfold VotingService.vote_for_option
  rw [hv]
  simp only [if_pos hst]

/-- The already-voted rejection of `vote_for_option`. -/
theorem vote_for_option_already {db : DB} {vid : Int} {v : Voting} (now : Nat) (u o : Int)
    (hv : DatabaseManager.get_voting db vid = some v)
    (hst : v.status = VoteStatus.active)
    (hyes : v.has_user_voted_for_option u o = true) :
    VotingService.vote_for_option now db u o vid =
      (db, (false, "Вы уже голосовали за этот день")) := by
  unfold VotingService.vote_for_option
  rw [hv]
  simp only [if_neg (show ¬(v.status ≠ VoteStatus.active) by simp [hst]), if_pos hyes]

/-- The success path of `vote_for_option`: a fresh vote row is appended. -/
theorem vote_for_option_success {db : DB} {vid : Int} {v : Voting} (now : Nat) (u o : Int)
    (hv : DatabaseManager.get_voting db vid = some v)
    (hst : v.status = VoteStatus.active)
    (hno : v.has_user_voted_for_option u o = false) :
    VotingService.vote_for_option now db u o vid =
      ({ db with
          votes := db.votes ++
            [{ vote_id := db.next_vote_id, user_id := u, option_id := o,
               voting_id := vid, created_at := now }],
          next_vote_id := db.next_vote_id + 1 },
       (true, "Голос засчитан!")) := by
  unfold VotingService.vote_for_option
  rw [hv]
  simp only [if_neg (show ¬(v.status ≠ VoteStatus.active) by simp [hst]),
    if_neg (show ¬(v.has_user_voted_for_option u o = true) by simp [hno])]
  rfl

/-- If the user has not voted for the option, no row of the votes table
matches the (user, option, voting) triple. -/
theorem no_vote_filter_nil {db : DB} {vid : Int} {v : Voting} {u o : Int}
    (hv : DatabaseManager.get_voting db vid = some v)
    (hno : v.has_user_voted_for_option u o = false) :
    db.votes.filter (fun r => r.user_id == u && r.option_id == o && r.voting_id == vid) = [] := by
  obtain ⟨row, hf, hid, hchat, hmsg, htitle, hcreated, hstat, hopts, hvotes⟩ := get_voting_inv hv
  unfold Voting.has_user_voted_for_option at hno
  rw [List.filter_eq_nil_iff]
  intro a ha hpred
  simp only [Bool.and_eq_true, beq_iff_eq] at hpred
  have hmemv : a ∈ v.votes := by
    rw [hvotes]
    exact List.mem_filter.mpr ⟨ha, by simp [hpred.2]⟩
  have hfalse := (List.any_eq_false.mp hno) a hmemv
  simp only [Bool.and_eq_true, beq_iff_eq] at hfalse
  exact hfalse ⟨hpred.1.1, hpred.1.2⟩

/-- The not-found rejection of `VotingService.remove_vote`. -/
theorem remove_vote_not_found {db : DB} {vid : Int} (u o : Int)
    (h : DatabaseManager.get_voting db vid = none) :
    VotingService.remove_vote db u o vid = (db, (false, "Голосование не найдено")) := by
  unfold VotingService.remove_vote
  rw [h]

/-- The closed-poll rejection of `VotingService.remove_vote`. -/
theorem remove_vote_closed {db : DB} {vid : Int} {v : Voting} (u o : Int)
    (hv : DatabaseManager.get_voting db vid = some v)
    (hst : v.status ≠ VoteStatus.active) :
    VotingService.remove_vote db u o vid = (db, (false, "Голосование уже завершено")) := by
  unfold VotingService.remove_vote
  rw [hv]
  simp only [if_pos hst]

/-- The not-voted rejection of `VotingService.remove_vote`. -/
theorem remove_vote_not_voted {db : DB} {vid : Int} {v : Voting} (u o : Int)
    (hv : DatabaseManager.get_voting db vid = some v)
    (hst : v.status = VoteStatus.active)
    (hno : v.has_user_voted_for_option u o = false) :
    VotingService.remove_vote db u o vid = (db, (false, "Вы не голосовали за этот день")) := by
  unfold VotingService.remove_vote
  rw [hv]
  simp only [if_neg (show ¬(v.status ≠ VoteStatus.active) by simp [hst]),
    if_pos (show (!v.has_user_voted_for_option u o) = true by simp [hno])]

/-- The success path of `VotingService.remove_vote`: every row matching
the triple is deleted. -/
theorem remove_vote_success {db : DB} {vid : Int} {v : Voting} (u o : Int)
    (hv : DatabaseManager.get_voting db vid = some v)
    (hst : v.status = VoteStatus.active)
    (hyes : v.has_user_voted_for_option u o = true) :
    VotingService.remove_vote db u o vid =
      ({ db with
          votes := db.votes.filter
            (fun r => !(r.user_id == u && r.option_id == o && r.voting_id == vid)) },
       (true, "Голос отменен")) := by
  obtain ⟨row, hf, hid, hchat, hmsg, htitle, hcreated, hstat, hopts, hvotes⟩ := get_voting_inv hv
  have hne : (db.votes.filter
      (fun r => r.user_id == u && r.option_id == o && r.voting_id == vid)).isEmpty = false := by
    unfold Voting.has_user_voted_for_option at hyes
    obtain ⟨a, ha, hpred⟩ := List.any_eq_true.mp hyes
    rw [hvotes] at ha
    obtain ⟨ha1, ha2⟩ := List.mem_filter.mp ha
    simp only [Bool.and_eq_true, beq_iff_eq] at hpred ha2
    rw [List.isEmpty_eq_false_iff_exists_mem]
    exact ⟨a, List.mem_filter.mpr ⟨ha1, by simp [hpred.1, hpred.2, ha2]⟩⟩
  unfold VotingService.remove_vote
  rw [hv]
  simp only [if_neg (show ¬(v.status ≠ VoteStatus.active) by simp [hst]),
    if_neg (show ¬((!v.has_user_voted_for_option u o) = true) by simp [hyes])]
  unfold DatabaseManager.remove_vote
  simp only [hne]
  rfl

/-- Closing preserves the row key, so the closed voting is re-assembled
with status `closed` and everything else unchanged. -/
theorem get_voting_set_closed {db : DB} {vid : Int} {v : Voting}
    (hv : DatabaseManager.get_voting db vid = some v) :
    DatabaseManager.get_voting (VotingService.set_voting_closed db vid) vid =
      some { v with status := VoteStatus.closed } := by
  unfold DatabaseManager.get_voting at hv ⊢
  unfold VotingService.set_voting_closed
  cases hf : db.votings.find? (fun r => r.voting_id == vid) with
  | none => rw [hf] at hv; cases hv
  | some row =>
      rw [hf] at hv
      injection hv with hv
      subst hv
      have hrowid : row.voting_id = vid := by
        have h := List.find?_some hf
        simpa using h
      rw [List.find?_map]
      have hcomp : ((fun r => r.voting_id == vid) ∘
          (fun r => if r.voting_id == vid then { r with status := VoteStatus.closed } else r) :
          VotingRow → Bool) = (fun r => r.voting_id == vid) := by
        funext r
        by_cases hc : r.voting_id = vid
        · simp [hc]
        · simp [hc]
      rw [hcomp, hf]
      simp [hrowid]

/-- The function `get_voting` after `set_voting_closed` is still absent
when it was absent. -/
theorem get_voting_set_closed_none {db : DB} {vid : Int}
    (hv : DatabaseManager.get_voting db vid = none) :
    DatabaseManager.get_voting (VotingService.set_voting_closed db vid) vid = none := by
  unfold DatabaseManager.get_voting at hv ⊢
  unfold VotingService.set_voting_closed
  cases hf : db.votings.find? (fun r => r.voting_id == vid) with
  | some row => rw [hf] at hv; cases hv
  | none =>
      have hcomp : ((fun r => r.voting_id == vid) ∘
          (fun r => if r.voting_id == vid then { r with status := VoteStatus.closed } else r) :
          VotingRow → Bool) = (fun r => r.voting_id == vid) := by
        funext r
        by_cases hc : r.voting_id = vid
        · simp [hc]
        · simp [hc]
      rw [List.find?_map, hcomp, hf]
      rfl

/-- Stats do not read the status flag: closing first changes nothing. -/
theorem get_voting_stats_set_closed (db : DB) (vid : Int) :
    VotingService.get_voting_stats (VotingService.set_voting_closed db vid) vid =
      VotingService.get_voting_stats db vid := by
  cases hgv : DatabaseManager.get_voting db vid with
  | none =>
      unfold VotingService.get_voting_stats
      rw [get_voting_set_closed_none hgv, hgv]
  | some v =>
      unfold VotingService.get_voting_stats
      rw [get_voting_set_closed hgv, hgv]
      rfl

/-- The not-found branch of `close_voting`. -/
theorem close_voting_not_found {db : DB} {vid : Int}
    (h : DatabaseManager.get_voting db vid = none) :
    VotingService.close_voting db vid = (db, none) := by
  unfold VotingService.close_voting
  rw [h]

/-- The not-active branch of `close_voting`. -/
theorem close_voting_not_active {db : DB} {vid : Int} {v : Voting}
    (hv : DatabaseManager.get_voting db vid = some v)
    (hst : v.status ≠ VoteStatus.active) :
    VotingService.close_voting db vid = (db, none) := by
  unfold VotingService.close_voting
  rw [hv]
  simp only [if_pos hst]

/-- The success branch of `close_voting`: status is flipped and the
option stats are ranked by the stable descending sort. -/
theorem close_voting_active {db : DB} {vid : Int} {v : Voting}
    (hv : DatabaseManager.get_voting db vid = some v)
    (hst : v.status = VoteStatus.active) :
    ∃ st, VotingService.get_voting_stats db vid = some st ∧
      VotingService.close_voting db vid =
        (VotingService.set_voting_closed db vid,
         some { title := st.title
                total_users := st.total_users
                voted_users := st.voted_users
                top_3 := (st.options.insertionSort
                  (fun a b => b.votes_count ≤ a.votes_count)).take 3
                all_options := st.options.insertionSort
                  (fun a b => b.votes_count ≤ a.votes_count) }) := by
  have hstats : VotingService.get_voting_stats db vid =
      some { voting_id := vid, title := v.title
             total_users := (DatabaseManager.get_all_users db).length
             voted_users := v.get_voted_users.length
             options := v.options.map (fun opt =>
               let vfo := v.get_votes_for_option opt.option_id
               { option_id := opt.option_id, description := opt.description, date := opt.date,
                 votes_count := vfo.length, voters := vfo.map Vote.user_id }) } := by
    unfold VotingService.get_voting_stats
    rw [hv]
  refine ⟨_, hstats, ?_⟩
  unfold VotingService.close_voting
  rw [hv]
  simp only [if_neg (show ¬(v.status ≠ VoteStatus.active) by simp [hst])]
  rw [get_voting_stats_set_closed, hstats]

/-- Heads survive a fold that only appends pairs on the right. -/
theorem head?_foldl_append_pair {α β : Type} (f g : β → α) :
    ∀ (l : List β) (acc : List α), acc ≠ [] →
      (l.foldl (fun a x => a ++ [f x, g x]) acc).head? = acc.head? := by
  intro l
  induction l with
  | nil => intro acc _; rfl
  | cons x xs ih =>
      intro acc h
      rw [List.foldl_cons, ih _ (by simp)]
      cases acc with
      | nil => exact absurd rfl h
      | cons y ys => rfl

/-! ## Claim theorems -/

/-- C1 (code bug): on a fresh store with no active poll, `create_voting`
does not return a populated poll at all — the claim says it succeeds
with 9 options and a reminder schedule, but the constructor call
`Voting(..., message_thread_id=...)` at voting.py lines 54–62 raises
`TypeError` (the `models.Voting` dataclass has no `message_thread_id`
field), before any row is written. -/
theorem create_voting_type_error_on_fresh_store :
    VotingService.create_voting 738886 0 emptyStore 123 (some "Тестовое голосование") none =
      (emptyStore, Except.error (PyExc.typeError
        "Voting.__init__() got an unexpected keyword argument 'message_thread_id'")) := rfl

/-- C2: while a chat has an ACTIVE voting, `create_voting` for the same
chat fails with the conflict `ValueError` and returns the store
unchanged — no mutation at all. -/
theorem create_voting_conflict_no_mutation
    (today now : Nat) (db : DB) (chat_id : Int) (title : Option String) (mtid : Option Int)
    (h : ∃ row ∈ db.votings, row.chat_id = chat_id ∧ row.status = VoteStatus.active) :
    VotingService.create_voting today now db chat_id title mtid =
      (db, Except.error (PyExc.valueError "В чате уже есть активное голосование")) := by
  obtain ⟨v, hv⟩ := get_active_voting_isSome h
  unfold VotingService.create_voting
  rw [hv]

/-- Witness for C2 at a concrete store with an active voting in chat 7. -/
theorem create_voting_conflict_no_mutation_witness :
    VotingService.create_voting 0 0 dbC2 7 none none =
      (dbC2, Except.error (PyExc.valueError "В чате уже есть активное голосование")) :=
  create_voting_conflict_no_mutation 0 0 dbC2 7 none none
    ⟨VotingRow.mk 1 7 none "t" 0 VoteStatus.active, by simp [dbC2], rfl, rfl⟩

/-- C3 counterexample: the conflict business condition does NOT come
back as a plain value — `create_voting` raises (`ValueError`) on a
concrete store whose chat 7 already has an active poll, refuting the
claim that no Engine operation raises on an expected business
condition. -/
theorem create_voting_raises_for_conflict_counterexample :
    VotingService.create_voting 0 0 dbC3 7 none none =
      (dbC3, Except.error (PyExc.valueError "В чате уже есть активное голосование")) := rfl

/-- C3 (amended): every Engine operation except `create_voting` surfaces
its expected business conditions as plain returned values and never
raises — `vote_for_option` and `remove_vote` return `(false, reason)`
for not-found, already-closed, already-voted and not-voted,
`close_voting`, `get_voting_stats` and `get_detailed_results` return
absent for a missing poll, and `get_non_voted_users` returns the empty
list; `create_voting` alone raises a `ValueError` for its conflict
condition. -/
theorem business_conditions_as_values (today now : Nat) (db : DB) (u o vid chat : Int)
    (title : Option String) (mtid : Option Int) (members : List User) :
    (DatabaseManager.get_voting db vid = none →
      VotingService.vote_for_option now db u o vid = (db, (false, "Голосование не найдено")) ∧
      VotingService.remove_vote db u o vid = (db, (false, "Голосование не найдено")) ∧
      VotingService.close_voting db vid = (db, none) ∧
      VotingService.get_voting_stats db vid = none ∧
      VotingService.get_detailed_results db vid = none ∧
      VotingService.get_non_voted_users db vid members = []) ∧
    (∀ v, DatabaseManager.get_voting db vid = some v → v.status ≠ VoteStatus.active →
      VotingService.vote_for_option now db u o vid = (db, (false, "Голосование уже завершено")) ∧
      VotingService.remove_vote db u o vid = (db, (false, "Голосование уже завершено")) ∧
      VotingService.close_voting db vid = (db, none)) ∧
    (∀ v, DatabaseManager.get_voting db vid = some v → v.status = VoteStatus.active →
      v.has_user_voted_for_option u o = true →
      VotingService.vote_for_option now db u o vid =
        (db, (false, "Вы уже голосовали за этот день"))) ∧
    (∀ v, DatabaseManager.get_voting db vid = some v → v.status = VoteStatus.active →
      v.has_user_voted_for_option u o = false →
      VotingService.remove_vote db u o vid = (db, (false, "Вы не голосовали за этот день"))) ∧
    ((∃ row ∈ db.votings, row.chat_id = chat ∧ row.status = VoteStatus.active) →
      VotingService.create_voting today now db chat title mtid =
        (db, Except.error (PyExc.valueError "В чате уже есть активное голосование"))) := by
  refine ⟨fun h => ⟨vote_for_option_not_found now u o h, remove_vote_not_found u o h,
      close_voting_not_found h, ?_, ?_, ?_⟩,
    fun v hv hst => ⟨vote_for_option_closed now u o hv hst, remove_vote_closed u o hv hst,
      close_voting_not_active hv hst⟩,
    fun v hv hst hyes => vote_for_option_already now u o hv hst hyes,
    fun v hv hst hno => remove_vote_not_voted u o hv hst hno,
    fun h => create_voting_conflict_no_mutation today now db chat title mtid h⟩
  · unfold VotingService.get_voting_stats
    rw [h]
  · unfold VotingService.get_detailed_results
    rw [h]
  · unfold VotingService.get_non_voted_users
    rw [h]

/-- Witness for C3 at a concrete store: a missing poll is a returned
value for `vote_for_option`, an absent result for the stats and
detailed-stats reads, while the conflict raises. -/
theorem business_conditions_as_values_witness :
    VotingService.vote_for_option 0 dbC3 5 10 99 = (dbC3, (false, "Голосование не найдено")) ∧
    VotingService.get_voting_stats dbC3 99 = none ∧
    VotingService.get_detailed_results dbC3 99 = none ∧
    VotingService.create_voting 0 0 dbC3 7 none none =
      (dbC3, Except.error (PyExc.valueError "В чате уже есть активное голосование")) :=
  ⟨((business_conditions_as_values 0 0 dbC3 5 10 99 7 none none []).1 rfl).1,
   ((business_conditions_as_values 0 0 dbC3 5 10 99 7 none none []).1 rfl).2.2.2.1,
   ((business_conditions_as_values 0 0 dbC3 5 10 99 7 none none []).1 rfl).2.2.2.2.1,
   (business_conditions_as_values 0 0 dbC3 5 10 99 7 none none []).2.2.2.2
     ⟨VotingRow.mk 1 7 none "t" 0 VoteStatus.active, by simp [dbC3], rfl, rfl⟩⟩

/-- C4: on an active poll with no prior vote for the triple, `vote`
succeeds, exactly one vote row for the (user, option, poll) triple
exists afterwards, and a second `vote` call returns `(false, reason)`
and leaves the store (hence the option vote count) unchanged. -/
theorem vote_exactly_once (now now2 : Nat) (db : DB) (u o vid : Int) (v : Voting)
    (hv : DatabaseManager.get_voting db vid = some v)
    (hact : v.status = VoteStatus.active)
    (hnot : v.has_user_voted_for_option u o = false) :
    (VotingService.vote_for_option now db u o vid).2 = (true, "Голос засчитан!") ∧
    ((VotingService.vote_for_option now db u o vid).1.votes.filter
        (fun r => r.user_id == u && r.option_id == o && r.voting_id == vid)).length = 1 ∧
    VotingService.vote_for_option now2 (VotingService.vote_for_option now db u o vid).1 u o vid
      = ((VotingService.vote_for_option now db u o vid).1,
         (false, "Вы уже голосовали за этот день")) := by
  have hstep := vote_for_option_success now u o hv hact hnot
  have hnil := no_vote_filter_nil hv hnot
  have hv1 := get_voting_append_vote hv (Vote.mk db.next_vote_id u o vid now) rfl
      (DB.mk db.users db.votings db.vote_options
        (db.votes ++ [Vote.mk db.next_vote_id u o vid now]) db.ping_schedules
        db.next_voting_id db.next_option_id (db.next_vote_id + 1) db.next_schedule_id)
      rfl rfl rfl
  refine ⟨by rw [hstep], ?_, ?_⟩
  · rw [hstep]
    simp only [List.filter_append, hnil, List.nil_append]
    simp
  · rw [hstep]
    refine vote_for_option_already now2 u o hv1 hact ?_
    unfold Voting.has_user_voted_for_option
    refine List.any_eq_true.mpr ⟨_, List.mem_append_right _ (List.mem_singleton_self _), ?_⟩
    simp

/-- Witness for C4 at a concrete active poll. -/
theorem vote_exactly_once_witness :
    (VotingService.vote_for_option 5 dbC4 42 10 1).2 = (true, "Голос засчитан!") ∧
    ((VotingService.vote_for_option 5 dbC4 42 10 1).1.votes.filter
        (fun r => r.user_id == 42 && r.option_id == 10 && r.voting_id == 1)).length = 1 :=
  ⟨(vote_exactly_once 5 6 dbC4 42 10 1 vC4 rfl rfl rfl).1,
   (vote_exactly_once 5 6 dbC4 42 10 1 vC4 rfl rfl rfl).2.1⟩

/-- C5: `vote` then `unvote` on the same triple restores the pre-vote
state exactly — the votes table, and with it every option's vote count
and voter list (the whole stats record), are as before the vote. -/
theorem vote_unvote_roundtrip (now : Nat) (db : DB) (u o vid : Int) (v : Voting)
    (hv : DatabaseManager.get_voting db vid = some v)
    (hact : v.status = VoteStatus.active)
    (hnot : v.has_user_voted_for_option u o = false) :
    (VotingService.vote_for_option now db u o vid).2.1 = true ∧
    (VotingService.remove_vote (VotingService.vote_for_option now db u o vid).1 u o vid).2
      = (true, "Голос отменен") ∧
    (VotingService.remove_vote (VotingService.vote_for_option now db u o vid).1 u o vid).1.votes
      = db.votes ∧
    VotingService.get_voting_stats
        (VotingService.remove_vote (VotingService.vote_for_option now db u o vid).1 u o vid).1 vid
      = VotingService.get_voting_stats db vid := by
  have hstep := vote_for_option_success now u o hv hact hnot
  have hnil := no_vote_filter_nil hv hnot
  have hv1 := get_voting_append_vote hv (Vote.mk db.next_vote_id u o vid now) rfl
      (DB.mk db.users db.votings db.vote_options
        (db.votes ++ [Vote.mk db.next_vote_id u o vid now]) db.ping_schedules
        db.next_voting_id db.next_option_id (db.next_vote_id + 1) db.next_schedule_id)
      rfl rfl rfl
  have hyes1 : ({ v with votes := v.votes ++ [Vote.mk db.next_vote_id u o vid now] }
      : Voting).has_user_voted_for_option u o = true := by
    unfold Voting.has_user_voted_for_option
    refine List.any_eq_true.mpr ⟨_, List.mem_append_right _ (List.mem_singleton_self _), ?_⟩
    simp
  have hrm := remove_vote_success u o hv1 hact hyes1
  have hkeep : db.votes.filter
      (fun r => !(r.user_id == u && r.option_id == o && r.voting_id == vid)) = db.votes := by
    rw [List.filter_eq_self]
    intro a ha
    have hnone := List.filter_eq_nil_iff.mp hnil a ha
    cases hb : (a.user_id == u && a.option_id == o && a.voting_id == vid) with
    | true => exact absurd hb hnone
    | false => simp
  have hvotes2 : (VotingService.remove_vote
      (VotingService.vote_for_option now db u o vid).1 u o vid).1.votes = db.votes := by
    rw [hstep]
    rw [hrm]
    show (db.votes ++ [Vote.mk db.next_vote_id u o vid now]).filter _ = db.votes
    rw [List.filter_append, hkeep]
    simp
  refine ⟨by rw [hstep], by rw [hstep, hrm], hvotes2, ?_⟩
  have hcong : DatabaseManager.get_voting (VotingService.remove_vote
      (VotingService.vote_for_option now db u o vid).1 u o vid).1 vid =
      DatabaseManager.get_voting db vid := by
    refine get_voting_congr vid ?_ ?_ hvotes2
    · rw [hstep, hrm]
    · rw [hstep, hrm]
  unfold VotingService.get_voting_stats
  rw [hcong, hv]
  rw [hstep, hrm]
  rfl

/-- Witness for C5 at a concrete active poll: the votes table is
restored after the round trip. -/
theorem vote_unvote_roundtrip_witness :
    (VotingService.remove_vote (VotingService.vote_for_option 9 dbC5 42 10 1).1 42 10 1).1.votes
      = dbC5.votes :=
  (vote_unvote_roundtrip 9 dbC5 42 10 1 vC5 rfl rfl rfl).2.2.1

/-- C6: closing an active poll ranks the option stats by vote count
descending; ties keep the original option order (the order of
`st.options`), witnessed by the sublist-stability property; `top_3` is
the first three of the full ranked list. -/
theorem close_voting_ranks_desc_stable (db : DB) (vid : Int) (v : Voting)
    (hv : DatabaseManager.get_voting db vid = some v)
    (hact : v.status = VoteStatus.active) :
    ∃ st res, VotingService.get_voting_stats db vid = some st ∧
      VotingService.close_voting db vid =
        (VotingService.set_voting_closed db vid, some res) ∧
      res.all_options.Perm st.options ∧
      res.all_options.Pairwise (fun a b => b.votes_count ≤ a.votes_count) ∧
      (∀ a b, List.Sublist [a, b] st.options → b.votes_count ≤ a.votes_count →
        List.Sublist [a, b] res.all_options) ∧
      res.top_3 = res.all_options.take 3 ∧
      res.title = st.title := by
  obtain ⟨st, hstats, hclose⟩ := close_voting_active hv hact
  refine ⟨st, _, hstats, hclose, ?_, ?_, ?_, rfl, rfl⟩
  · exact List.perm_insertionSort _ st.options
  · haveI h1 : IsTotal VotingService.OptionStat
        (fun a b => b.votes_count ≤ a.votes_count) := ⟨fun a b => Nat.le_total _ _⟩
    haveI h2 : IsTrans VotingService.OptionStat
        (fun a b => b.votes_count ≤ a.votes_count) := ⟨fun a b c hab hbc => le_trans hbc hab⟩
    exact List.sorted_insertionSort _ st.options
  · intro a b hsub hba
    exact List.pair_sublist_insertionSort hba hsub

/-- Witness for C6 at a poll with counts [5, 0, 2, 3]: the top-3 counts
are [5, 3, 2], and the ranking facts hold. -/
theorem close_voting_ranks_desc_stable_witness :
    ((VotingService.close_voting dbC6 1).2.map
        (fun r => r.top_3.map (fun s => s.votes_count))) = some [5, 3, 2] ∧
    (∃ st res, VotingService.get_voting_stats dbC6 1 = some st ∧
      VotingService.close_voting dbC6 1 =
        (VotingService.set_voting_closed dbC6 1, some res) ∧
      res.all_options.Perm st.options ∧
      res.all_options.Pairwise (fun a b => b.votes_count ≤ a.votes_count) ∧
      (∀ a b, List.Sublist [a, b] st.options → b.votes_count ≤ a.votes_count →
        List.Sublist [a, b] res.all_options) ∧
      res.top_3 = res.all_options.take 3 ∧
      res.title = st.title) :=
  ⟨rfl, close_voting_ranks_desc_stable dbC6 1 vC6 rfl rfl⟩

/-- C7: `close_voting` returns absent and leaves the store unchanged
when the poll is missing or not active; in particular a second close of
the same poll returns absent and changes nothing further. -/
theorem close_voting_absent_and_idempotent (db : DB) (pid : Int) :
    (DatabaseManager.get_voting db pid = none →
      VotingService.close_voting db pid = (db, none)) ∧
    (∀ v, DatabaseManager.get_voting db pid = some v → v.status ≠ VoteStatus.active →
      VotingService.close_voting db pid = (db, none)) ∧
    (∀ v, DatabaseManager.get_voting db pid = some v → v.status = VoteStatus.active →
      VotingService.close_voting (VotingService.close_voting db pid).1 pid
        = ((VotingService.close_voting db pid).1, none)) := by
  refine ⟨fun h => close_voting_not_found h,
    fun v hv hst => close_voting_not_active hv hst, ?_⟩
  intro v hv hst
  obtain ⟨st, hstats, hclose⟩ := close_voting_active hv hst
  rw [hclose]
  exact close_voting_not_active (get_voting_set_closed hv) (by simp)

/-- Witness for C7: closing a missing poll, and re-closing a just-closed
poll, both return absent with the store unchanged. -/
theorem close_voting_absent_and_idempotent_witness :
    VotingService.close_voting dbC7 99 = (dbC7, none) ∧
    VotingService.close_voting (VotingService.close_voting dbC7 1).1 1
      = ((VotingService.close_voting dbC7 1).1, none) :=
  ⟨(close_voting_absent_and_idempotent dbC7 99).1 rfl,
   (close_voting_absent_and_idempotent dbC7 1).2.2 vC7 rfl rfl⟩

/-- C9: from a Monday start with a 2-week lookahead the generator
returns exactly the four dates Sat₁, Sun₁, Sat₂, Sun₂ in order, where
Sat₁ is the first Saturday on or after the start; and from a Saturday
start that Saturday itself is the first generated date. -/
theorem generate_weekend_dates_monday_two_weeks :
    (∀ d : Nat, VotingService.weekday d = 0 →
      VotingService.generate_weekend_dates d 2 = [d + 5, d + 6, d + 12, d + 13] ∧
      VotingService.weekday (d + 5) = 5 ∧ VotingService.weekday (d + 6) = 6 ∧
      VotingService.weekday (d + 12) = 5 ∧ VotingService.weekday (d + 13) = 6 ∧
      (∀ e, d ≤ e → e < d + 5 → VotingService.weekday e ≠ 5)) ∧
    (∀ (d weeks : Nat), VotingService.weekday d = 5 → 1 ≤ weeks →
      (VotingService.generate_weekend_dates d weeks).head? = some d) := by
  constructor
  · intro d hd
    refine ⟨?_, ?_, ?_, ?_, ?_, ?_⟩
    · unfold VotingService.generate_weekend_dates
      rw [hd]
      norm_num
      simp [List.range_succ]
    · unfold VotingService.weekday at hd ⊢; omega
    · unfold VotingService.weekday at hd ⊢; omega
    · unfold VotingService.weekday at hd ⊢; omega
    · unfold VotingService.weekday at hd ⊢; omega
    · intro e h1 h2
      unfold VotingService.weekday at hd ⊢; omega
  · intro d weeks hd hw
    obtain ⟨k, rfl⟩ : ∃ k, weeks = k + 1 := ⟨weeks - 1, by omega⟩
    unfold VotingService.generate_weekend_dates
    rw [hd]
    norm_num
    rw [List.range_succ_eq_map, List.foldl_cons]
    rw [head?_foldl_append_pair (fun week => d + 7 * week) (fun week => d + 7 * week + 1)]
    · rfl
    · simp

/-- Witness for C9 at 2024-01-01 (ordinal 738886, a Monday) and at
2024-01-06 (ordinal 738891, a Saturday). -/
theorem generate_weekend_dates_monday_two_weeks_witness :
    VotingService.generate_weekend_dates 738886 2 = [738891, 738892, 738898, 738899] ∧
    (VotingService.generate_weekend_dates 738891 1).head? = some 738891 :=
  ⟨(generate_weekend_dates_monday_two_weeks.1 738886 (by decide)).1,
   generate_weekend_dates_monday_two_weeks.2 738891 1 (by decide) (by decide)⟩

/-- C10: `vote_for_option` performs no check that the option belongs to
the poll — for any option id the user has not voted for, even one that
is not among the poll's own options, it succeeds and inserts a vote row
for that id. -/
theorem vote_for_option_ignores_membership (now : Nat) (db : DB) (u o vid : Int) (v : Voting)
    (hv : DatabaseManager.get_voting db vid = some v)
    (hact : v.status = VoteStatus.active)
    (hnot : v.has_user_voted_for_option u o = false)
    (_hout : o ∉ v.options.map VoteOption.option_id) :
    VotingService.vote_for_option now db u o vid =
      (DB.mk db.users db.votings db.vote_options
        (db.votes ++ [Vote.mk db.next_vote_id u o vid now]) db.ping_schedules
        db.next_voting_id db.next_option_id (db.next_vote_id + 1) db.next_schedule_id,
       (true, "Голос засчитан!")) :=
  vote_for_option_success now u o hv hact hnot

/-- Witness for C10: voting for id 999, which is not an option of the
poll (its only option id is 10), succeeds and inserts the row. -/
theorem vote_for_option_ignores_membership_witness :
    VotingService.vote_for_option 3 dbC10 42 999 1 =
      (DB.mk dbC10.users dbC10.votings dbC10.vote_options
        (dbC10.votes ++ [Vote.mk dbC10.next_vote_id 42 999 1 3]) dbC10.ping_schedules
        dbC10.next_voting_id dbC10.next_option_id (dbC10.next_vote_id + 1)
        dbC10.next_schedule_id,
       (true, "Голос засчитан!")) :=
  vote_for_option_ignores_membership 3 dbC10 42 999 1 vC10 rfl rfl rfl (by decide)

/-- Setting a sent flag never changes the schedule id. -/
theorem set_sent_flag_schedule_id (r : PingSchedule) (t : String) :
    (DatabaseManager.set_sent_flag r t).schedule_id = r.schedule_id := by
  unfold DatabaseManager.set_sent_flag
  by_cases h1 : t = "24h"
  · simp [h1]
  · by_cases h2 : t = "48h"
    · simp [h1, h2]
    · by_cases h3 : t = "72h" <;> simp [h1, h2, h3]

/-- Folding flag updates never changes the schedule id. -/
theorem foldl_set_sent_flag_schedule_id (ts : List String) (r : PingSchedule) :
    (ts.foldl DatabaseManager.set_sent_flag r).schedule_id = r.schedule_id := by
  induction ts generalizing r with
  | nil => rfl
  | cons t ts ih => rw [List.foldl_cons, ih, set_sent_flag_schedule_id]

/-- One cycle's inner loop over the due ping kinds of one schedule:
rows of other schedules are untouched, the processed schedule's row gets
exactly the successfully delivered kinds marked, every kind is invoked
and logged with its delivery outcome, and no other table changes. -/
theorem foldl_process_ping_spec (deliver : Int → Int → String → Bool) (c vi si : Int) :
    ∀ (ts : List String) (acc : DB × List (Int × String × Bool)),
      ((ts.foldl (PingScheduler.process_ping deliver c vi si) acc).1.ping_schedules =
        acc.1.ping_schedules.map (fun r =>
          if r.schedule_id == si then
            (ts.filter (fun t => deliver c vi (PingScheduler.get_ping_message t))).foldl
              DatabaseManager.set_sent_flag r
          else r)) ∧
      ((ts.foldl (PingScheduler.process_ping deliver c vi si) acc).2 =
        acc.2 ++ ts.map (fun t => (si, t, deliver c vi (PingScheduler.get_ping_message t)))) ∧
      ((ts.foldl (PingScheduler.process_ping deliver c vi si) acc).1.votings
        = acc.1.votings) ∧
      ((ts.foldl (PingScheduler.process_ping deliver c vi si) acc).1.vote_options
        = acc.1.vote_options) ∧
      ((ts.foldl (PingScheduler.process_ping deliver c vi si) acc).1.votes
        = acc.1.votes) := by
  intro ts
  induction ts with
  | nil =>
      intro acc
      refine ⟨?_, by simp, rfl, rfl, rfl⟩
      simp
  | cons t ts ih =>
      intro acc
      rw [List.foldl_cons]
      by_cases hd : deliver c vi (PingScheduler.get_ping_message t) = true
      · have hacc1 : PingScheduler.process_ping deliver c vi si acc t =
            (DatabaseManager.mark_ping_sent acc.1 si t, acc.2 ++ [(si, t, true)]) := by
          unfold PingScheduler.process_ping
          rw [if_pos hd]
        rw [hacc1]
        obtain ⟨ih1, ih2, ih3, ih4, ih5⟩ :=
          ih (DatabaseManager.mark_ping_sent acc.1 si t, acc.2 ++ [(si, t, true)])
        refine ⟨?_, ?_, by rw [ih3]; rfl, by rw [ih4]; rfl, by rw [ih5]; rfl⟩
        · rw [ih1]
          have hms : (DatabaseManager.mark_ping_sent acc.1 si t).ping_schedules =
              acc.1.ping_schedules.map (fun r =>
                if r.schedule_id == si then DatabaseManager.set_sent_flag r t else r) := rfl
          rw [hms, List.map_map]
          have hfun : ((fun r =>
              if r.schedule_id == si then
                (ts.filter (fun t' => deliver c vi (PingScheduler.get_ping_message t'))).foldl
                  DatabaseManager.set_sent_flag r
              else r) ∘ (fun r =>
                if r.schedule_id == si then DatabaseManager.set_sent_flag r t else r)) =
              (fun r =>
                if r.schedule_id == si then
                  ((t :: ts).filter
                    (fun t' => deliver c vi (PingScheduler.get_ping_message t'))).foldl
                    DatabaseManager.set_sent_flag r
                else r) := by
            funext r
            by_cases hr : r.schedule_id = si
            · simp only [Function.comp_apply, if_pos (show (r.schedule_id == si) = true by
                simp [hr])]
              rw [if_pos (show ((DatabaseManager.set_sent_flag r t).schedule_id == si) = true by
                simp [set_sent_flag_schedule_id, hr])]
              rw [@List.filter_cons_of_pos _
                (fun t' => deliver c vi (PingScheduler.get_ping_message t')) t ts hd,
                List.foldl_cons]
            · simp only [Function.comp_apply, if_neg (show ¬(r.schedule_id == si) = true by
                simp [hr])]
          rw [hfun]
        · rw [ih2, List.map_cons, hd, List.append_assoc]
          rfl
      · have hd' : deliver c vi (PingScheduler.get_ping_message t) = false := by
          simpa using hd
        have hacc1 : PingScheduler.process_ping deliver c vi si acc t =
            (acc.1, acc.2 ++ [(si, t, false)]) := by
          unfold PingScheduler.process_ping
          rw [if_neg hd]
        rw [hacc1]
        obtain ⟨ih1, ih2, ih3, ih4, ih5⟩ := ih (acc.1, acc.2 ++ [(si, t, false)])
        refine ⟨?_, ?_, by rw [ih3], by rw [ih4], by rw [ih5]⟩
        · rw [ih1, @List.filter_cons_of_neg _
            (fun t' => deliver c vi (PingScheduler.get_ping_message t')) t ts (by simp [hd'])]
        · rw [ih2, List.map_cons, hd', List.append_assoc]
          rfl

/-- One outer-loop iteration: the store's schedule rows are rewritten by
`row_update`, the log grows by this schedule's invocations, and the
other tables are untouched. -/
theorem process_schedule_spec (deliver : Int → Int → String → Bool) (now : Nat) (db : DB)
    (acc : DB × List (Int × String × Bool)) (s' : PingSchedule)
    (h1 : acc.1.votings = db.votings) (h2 : acc.1.vote_options = db.vote_options)
    (h3 : acc.1.votes = db.votes) :
    ((PingScheduler.process_schedule deliver now acc s').1.ping_schedules =
      acc.1.ping_schedules.map (PingScheduler.row_update deliver now db s')) ∧
    ((PingScheduler.process_schedule deliver now acc s').2 =
      acc.2 ++ PingScheduler.schedule_log deliver now db s') ∧
    ((PingScheduler.process_schedule deliver now acc s').1.votings = db.votings) ∧
    ((PingScheduler.process_schedule deliver now acc s').1.vote_options = db.vote_options) ∧
    ((PingScheduler.process_schedule deliver now acc s').1.votes = db.votes) := by
  unfold PingScheduler.process_schedule
  rw [get_voting_congr s'.voting_id h1 h2 h3]
  cases hgv : DatabaseManager.get_voting db s'.voting_id with
  | none =>
      refine ⟨?_, ?_, h1, h2, h3⟩
      · have hid : PingScheduler.row_update deliver now db s' = fun r => r := by
          funext r
          unfold PingScheduler.row_update
          rw [hgv]
          simp
        rw [hid, List.map_id']
      · unfold PingScheduler.schedule_log
        rw [hgv]
        simp
  | some v =>
      obtain ⟨i1, i2, i3, i4, i5⟩ := foldl_process_ping_spec deliver v.chat_id v.voting_id
        s'.schedule_id (PingScheduler.ping_types_for now s') acc
      refine ⟨?_, ?_, i3.trans h1, i4.trans h2, i5.trans h3⟩
      · rw [i1]
        have hfun : (fun r =>
            if r.schedule_id == s'.schedule_id then
              ((PingScheduler.ping_types_for now s').filter
                (fun t => deliver v.chat_id v.voting_id (PingScheduler.get_ping_message t))).foldl
                DatabaseManager.set_sent_flag r
            else r) = PingScheduler.row_update deliver now db s' := by
          funext r
          unfold PingScheduler.row_update
          rw [hgv]
        rw [hfun]
      · rw [i2]
        unfold PingScheduler.schedule_log
        rw [hgv]

/-- The whole scan cycle, characterized: every stored schedule row is
rewritten by the fold of `row_update` over the due-schedule snapshots,
and the log is the concatenation of each snapshot's invocations. -/
theorem foldl_process_schedule_spec (deliver : Int → Int → String → Bool) (now : Nat) (db : DB) :
    ∀ (l : List PingSchedule) (acc : DB × List (Int × String × Bool)),
      acc.1.votings = db.votings → acc.1.vote_options = db.vote_options →
      acc.1.votes = db.votes →
      ((l.foldl (PingScheduler.process_schedule deliver now) acc).1.ping_schedules =
        acc.1.ping_schedules.map (fun r =>
          l.foldl (fun r' s' => PingScheduler.row_update deliver now db s' r') r)) ∧
      ((l.foldl (PingScheduler.process_schedule deliver now) acc).2 =
        acc.2 ++ l.flatMap (PingScheduler.schedule_log deliver now db)) := by
  intro l
  induction l with
  | nil =>
      intro acc h1 h2 h3
      exact ⟨by simp, by simp⟩
  | cons s' l' ih =>
      intro acc h1 h2 h3
      rw [List.foldl_cons]
      obtain ⟨p1, p2, p3, p4, p5⟩ := process_schedule_spec deliver now db acc s' h1 h2 h3
      obtain ⟨q1, q2⟩ := ih (PingScheduler.process_schedule deliver now acc s') p3 p4 p5
      refine ⟨?_, ?_⟩
      · rw [q1, p1, List.map_map]
        congr 1
      · rw [q2, p2, List.append_assoc, List.flatMap_cons]

/-- Characterization of `check_and_send_pings` on the initial store. -/
theorem check_and_send_pings_spec (deliver : Int → Int → String → Bool) (now : Nat) (db : DB) :
    ((PingScheduler.check_and_send_pings deliver now db).1.ping_schedules =
      db.ping_schedules.map (fun r =>
        (DatabaseManager.get_pending_pings db now).foldl
          (fun r' s' => PingScheduler.row_update deliver now db s' r') r)) ∧
    ((PingScheduler.check_and_send_pings deliver now db).2 =
      (DatabaseManager.get_pending_pings db now).flatMap
        (PingScheduler.schedule_log deliver now db)) := by
  unfold PingScheduler.check_and_send_pings
  obtain ⟨a, b⟩ := foldl_process_schedule_spec deliver now db
    (DatabaseManager.get_pending_pings db now) (db, []) rfl rfl rfl
  exact ⟨a, by rw [b]; simp⟩

/-- Processing schedules with other ids never touches a row. -/
theorem foldl_row_update_of_unique (deliver : Int → Int → String → Bool) (now : Nat) (db : DB) :
    ∀ (l : List PingSchedule) (r : PingSchedule),
      (∀ x ∈ l, x.schedule_id ≠ r.schedule_id) →
      l.foldl (fun r' s' => PingScheduler.row_update deliver now db s' r') r = r := by
  intro l
  induction l with
  | nil => intro r _; rfl
  | cons x xs ih =>
      intro r h
      rw [List.foldl_cons]
      have hx : PingScheduler.row_update deliver now db x r = r := by
        unfold PingScheduler.row_update
        rw [if_neg]
        intro hc
        exact h x (List.mem_cons_self _ _) (by simpa using (beq_iff_eq.mp hc).symm)
      rw [hx]
      exact ih r (fun y hy => h y (List.mem_cons_of_mem _ hy))

/-- A ping kind generated by the loop is one of the three known kinds. -/
theorem ping_types_subset (now : Nat) (s : PingSchedule) :
    ∀ x ∈ PingScheduler.ping_types_for now s, x ∈ (["24h", "48h", "72h"] : List String) := by
  intro x hx
  unfold PingScheduler.ping_types_for at hx
  by_cases h1 : (decide (s.ping_24h_at ≤ now) && !s.is_24h_sent) = true <;>
  by_cases h2 : (decide (s.ping_48h_at ≤ now) && !s.is_48h_sent) = true <;>
  by_cases h3 : (decide (s.ping_72h_at ≤ now) && !s.is_72h_sent) = true <;>
  simp [h1, h2, h3] at hx <;> simp only [List.mem_cons, List.not_mem_nil, or_false] <;> tauto

/-- A known ping kind is generated precisely when its sub-reminder is
due on the snapshot. -/
theorem mem_ping_types_iff (now : Nat) (s : PingSchedule) (t : String)
    (ht : t ∈ (["24h", "48h", "72h"] : List String)) :
    t ∈ PingScheduler.ping_types_for now s ↔ PingScheduler.sub_due now s t = true := by
  unfold PingScheduler.ping_types_for
  simp only [List.mem_cons, List.not_mem_nil, or_false] at ht
  by_cases h1 : (decide (s.ping_24h_at ≤ now) && !s.is_24h_sent) = true <;>
  by_cases h2 : (decide (s.ping_48h_at ≤ now) && !s.is_48h_sent) = true <;>
  by_cases h3 : (decide (s.ping_72h_at ≤ now) && !s.is_72h_sent) = true <;>
  rcases ht with rfl | rfl | rfl <;>
  simp [h1, h2, h3, PingScheduler.sub_due, PingScheduler.sub_fire_time, PingScheduler.sub_sent]

/-- Folding flag updates over a set of kinds sets exactly those kinds. -/
theorem sub_sent_foldl_set :
    ∀ (ts : List String), (∀ x ∈ ts, x ∈ (["24h", "48h", "72h"] : List String)) →
      ∀ (s : PingSchedule) (t : String), t ∈ (["24h", "48h", "72h"] : List String) →
      PingScheduler.sub_sent (ts.foldl DatabaseManager.set_sent_flag s) t =
        (PingScheduler.sub_sent s t || decide (t ∈ ts)) := by
  intro ts
  induction ts with
  | nil => intro _ s t _; simp
  | cons x ts ih =>
      intro hts s t ht
      rw [List.foldl_cons]
      rw [ih (fun y hy => hts y (List.mem_cons_of_mem _ hy)) _ t ht]
      have hx := hts x (List.mem_cons_self _ _)
      have hstep : PingScheduler.sub_sent (DatabaseManager.set_sent_flag s x) t =
          (PingScheduler.sub_sent s t || decide (t = x)) := by
        simp only [List.mem_cons, List.not_mem_nil, or_false] at hx ht
        rcases hx with rfl | rfl | rfl <;> rcases ht with rfl | rfl | rfl <;>
          simp [DatabaseManager.set_sent_flag, PingScheduler.sub_sent]
      rw [hstep]
      simp only [List.mem_cons]
      cases hst : PingScheduler.sub_sent s t <;>
      cases hm : decide (t = x) <;>
      cases hm2 : decide (t ∈ ts) <;>
      simp_all

/-- C8: in one scan cycle, for any stored schedule (unique ids) whose
voting exists, each of the three sub-reminders is attempted exactly when
it is due — regardless of the outcome of any other delivery — and its
sent flag afterwards is set iff it was already set or its own delivery
succeeded; in particular a failed delivery leaves it unsent for the next
wake, and a flag is never set without a successful delivery. -/
theorem scheduler_marks_only_after_delivery
    (deliver : Int → Int → String → Bool) (now : Nat) (db : DB)
    (hnodup : (db.ping_schedules.map PingSchedule.schedule_id).Nodup)
    (s : PingSchedule) (hs : s ∈ db.ping_schedules)
    (t : String) (ht : t ∈ (["24h", "48h", "72h"] : List String))
    (v : Voting) (hvot : DatabaseManager.get_voting db s.voting_id = some v) :
    ((s.schedule_id, t, deliver v.chat_id v.voting_id (PingScheduler.get_ping_message t))
        ∈ (PingScheduler.check_and_send_pings deliver now db).2
      ↔ PingScheduler.sub_due now s t = true) ∧
    (∃ r, r ∈ (PingScheduler.check_and_send_pings deliver now db).1.ping_schedules ∧
      r.schedule_id = s.schedule_id ∧
      PingScheduler.sub_sent r t =
        (PingScheduler.sub_sent s t ||
          (PingScheduler.sub_due now s t &&
            deliver v.chat_id v.voting_id (PingScheduler.get_ping_message t)))) := by
  obtain ⟨hsched, hlog⟩ := check_and_send_pings_spec deliver now db
  have hpf : DatabaseManager.get_pending_pings db now =
      db.ping_schedules.filter (fun r =>
        (decide (r.ping_24h_at ≤ now) && !r.is_24h_sent) ||
        (decide (r.ping_48h_at ≤ now) && !r.is_48h_sent) ||
        (decide (r.ping_72h_at ≤ now) && !r.is_72h_sent)) := rfl
  have hsub : List.Sublist (DatabaseManager.get_pending_pings db now) db.ping_schedules := by
    rw [hpf]
    exact List.filter_sublist _
  have hpnodup : ((DatabaseManager.get_pending_pings db now).map
      PingSchedule.schedule_id).Nodup :=
    List.Nodup.sublist (hsub.map _) hnodup
  have hinj : ∀ x ∈ db.ping_schedules, ∀ y ∈ db.ping_schedules,
      x.schedule_id = y.schedule_id → x = y := by
    intro x hx y hy hxy
    exact List.inj_on_of_nodup_map hnodup hx hy hxy
  by_cases hin : s ∈ DatabaseManager.get_pending_pings db now
  · obtain ⟨l1, l2, hsplit⟩ := List.append_of_mem hin
    have hl1l2 : (∀ x ∈ l1, x.schedule_id ≠ s.schedule_id) ∧
        (∀ x ∈ l2, x.schedule_id ≠ s.schedule_id) := by
      rw [hsplit, List.map_append, List.map_cons] at hpnodup
      obtain ⟨nd1, nd2, hdisj⟩ := List.nodup_append.mp hpnodup
      refine ⟨?_, ?_⟩
      · intro x hx heq
        exact hdisj (List.mem_map_of_mem _ hx) (by rw [heq]; exact List.mem_cons_self _ _)
      · intro x hx heq
        exact (List.nodup_cons.mp nd2).1 (by rw [← heq]; exact List.mem_map_of_mem _ hx)
    have hFs : (DatabaseManager.get_pending_pings db now).foldl
        (fun r' s' => PingScheduler.row_update deliver now db s' r') s =
        ((PingScheduler.ping_types_for now s).filter
          (fun t' => deliver v.chat_id v.voting_id (PingScheduler.get_ping_message t'))).foldl
          DatabaseManager.set_sent_flag s := by
      rw [hsplit, List.foldl_append, foldl_row_update_of_unique deliver now db l1 s hl1l2.1,
        List.foldl_cons]
      have hstep : PingScheduler.row_update deliver now db s s =
          ((PingScheduler.ping_types_for now s).filter
            (fun t' => deliver v.chat_id v.voting_id (PingScheduler.get_ping_message t'))).foldl
            DatabaseManager.set_sent_flag s := by
        unfold PingScheduler.row_update
        rw [if_pos (by simp), hvot]
      rw [hstep]
      refine foldl_row_update_of_unique deliver now db l2 _ ?_
      intro x hx
      rw [foldl_set_sent_flag_schedule_id]
      exact hl1l2.2 x hx
    have hflag : PingScheduler.sub_sent
        (((PingScheduler.ping_types_for now s).filter
          (fun t' => deliver v.chat_id v.voting_id (PingScheduler.get_ping_message t'))).foldl
          DatabaseManager.set_sent_flag s) t =
        (PingScheduler.sub_sent s t || (PingScheduler.sub_due now s t &&
          deliver v.chat_id v.voting_id (PingScheduler.get_ping_message t))) := by
      rw [sub_sent_foldl_set _
        (fun x hx => ping_types_subset now s x (List.mem_of_mem_filter hx)) s t ht]
      congr 1
      by_cases hm : t ∈ (PingScheduler.ping_types_for now s).filter
          (fun t' => deliver v.chat_id v.voting_id (PingScheduler.get_ping_message t'))
      · obtain ⟨hty, hdel⟩ := List.mem_filter.mp hm
        simp only [hm, decide_eq_true_eq]
        simp [(mem_ping_types_iff now s t ht).mp hty, hdel]
      · have hfalse : decide (t ∈ (PingScheduler.ping_types_for now s).filter
            (fun t' => deliver v.chat_id v.voting_id (PingScheduler.get_ping_message t')))
            = false := by simp [hm]
        rw [hfalse]
        cases hdu : PingScheduler.sub_due now s t with
        | false => simp
        | true =>
            cases hde : deliver v.chat_id v.voting_id (PingScheduler.get_ping_message t) with
            | false => simp
            | true =>
                exact absurd (List.mem_filter.mpr
                  ⟨(mem_ping_types_iff now s t ht).mpr hdu, hde⟩) hm
    refine ⟨?_, ⟨(DatabaseManager.get_pending_pings db now).foldl
        (fun r' s' => PingScheduler.row_update deliver now db s' r') s, ?_, ?_, ?_⟩⟩
    · rw [hlog]
      constructor
      · intro hmem
        obtain ⟨s', hs', hentry⟩ := List.mem_flatMap.mp hmem
        unfold PingScheduler.schedule_log at hentry
        cases hgv' : DatabaseManager.get_voting db s'.voting_id with
        | none =>
            rw [hgv'] at hentry
            cases hentry
        | some v' =>
            rw [hgv'] at hentry
            obtain ⟨t', ht', heq⟩ := List.mem_map.mp hentry
            simp only [Prod.mk.injEq] at heq
            obtain ⟨hid, htt, _⟩ := heq
            have hss : s' = s := hinj s' (hsub.subset hs') s hs hid
            subst hss
            subst htt
            exact (mem_ping_types_iff now s' t' ht).mp ht'
      · intro hdu
        refine List.mem_flatMap.mpr ⟨s, hin, ?_⟩
        unfold PingScheduler.schedule_log
        rw [hvot]
        exact List.mem_map.mpr ⟨t, (mem_ping_types_iff now s t ht).mpr hdu, rfl⟩
    · rw [hsched]
      exact List.mem_map_of_mem _ hs
    · rw [hFs, foldl_set_sent_flag_schedule_id]
    · rw [hFs, hflag]
  · have hnotpred : ¬ ((decide (s.ping_24h_at ≤ now) && !s.is_24h_sent) ||
        (decide (s.ping_48h_at ≤ now) && !s.is_48h_sent) ||
        (decide (s.ping_72h_at ≤ now) && !s.is_72h_sent)) = true := by
      intro hp
      exact hin (by rw [hpf]; exact List.mem_filter.mpr ⟨hs, hp⟩)
    have hdue : PingScheduler.sub_due now s t = false := by
      simp only [Bool.or_eq_true, not_or] at hnotpred
      simp only [List.mem_cons, List.not_mem_nil, or_false] at ht
      rcases ht with rfl | rfl | rfl
      · exact Bool.eq_false_iff.mpr hnotpred.1.1
      · exact Bool.eq_false_iff.mpr hnotpred.1.2
      · exact Bool.eq_false_iff.mpr hnotpred.2
    have hFs : (DatabaseManager.get_pending_pings db now).foldl
        (fun r' s' => PingScheduler.row_update deliver now db s' r') s = s := by
      refine foldl_row_update_of_unique deliver now db _ s ?_
      intro x hx heq
      have hss : x = s := hinj x (hsub.subset hx) s hs heq
      exact hin (hss ▸ hx)
    refine ⟨?_, ⟨(DatabaseManager.get_pending_pings db now).foldl
        (fun r' s' => PingScheduler.row_update deliver now db s' r') s, ?_, ?_, ?_⟩⟩
    · refine iff_of_false ?_ (by simp [hdue])
      intro hmem
      rw [hlog] at hmem
      obtain ⟨s', hs', hentry⟩ := List.mem_flatMap.mp hmem
      unfold PingScheduler.schedule_log at hentry
      cases hgv' : DatabaseManager.get_voting db s'.voting_id with
      | none =>
          rw [hgv'] at hentry
          cases hentry
      | some v' =>
          rw [hgv'] at hentry
          obtain ⟨t', ht', heq⟩ := List.mem_map.mp hentry
          simp only [Prod.mk.injEq] at heq
          have hss : s' = s := hinj s' (hsub.subset hs') s hs heq.1
          exact hin (hss ▸ hs')
    · rw [hsched]
      exact List.mem_map_of_mem _ hs
    · rw [hFs]
    · rw [hFs, hdue]
      simp

/-- Witness for C8 at a store with one schedule whose 24h sub-reminder
is due at time 150, with a delivery callback that always fails: the
delivery is attempted, and the flag stays unsent. -/
theorem scheduler_marks_only_after_delivery_witness :
    (((1 : Int), "24h", false)
        ∈ (PingScheduler.check_and_send_pings (fun _ _ _ => false) 150 dbC8).2
      ↔ PingScheduler.sub_due 150 (PingSchedule.mk 1 1 100 200 300 false false false) "24h"
          = true) ∧
    (∃ r, r ∈ (PingScheduler.check_and_send_pings
        (fun _ _ _ => false) 150 dbC8).1.ping_schedules ∧
      r.schedule_id = (PingSchedule.mk 1 1 100 200 300 false false false).schedule_id ∧
      PingScheduler.sub_sent r "24h" =
        (PingScheduler.sub_sent (PingSchedule.mk 1 1 100 200 300 false false false) "24h" ||
          (PingScheduler.sub_due 150 (PingSchedule.mk 1 1 100 200 300 false false false) "24h"
            && false))) :=
  scheduler_marks_only_after_delivery (fun _ _ _ => false) 150 dbC8 (by decide)
    (PingSchedule.mk 1 1 100 200 300 false false false) (by decide)
    "24h" (by decide) vC8 rfl

end FrienGO
